import Mathlib

/-!
Shallow embedding of src/extensions/typescript/src/typescriptServiceClient.ts
(the TypeScript language-service client of VS Code).

The embedding models the state owned by the client — the outgoing request
queue with its sequence counter (class RequestQueue), the callback registry
(class CallbackMap), and the crash-loop bookkeeping of the service supervisor
(numberRestarts / lastStart) — as pure data, and each method of the source as
a state-passing function.  Calls into promise callbacks (resolve / reject)
are modelled as emitted Resolution events; writes to the worker's stdin are
modelled as emitted request lists; window notifications as an Option Notif.
The asynchronous write of sendRequest is split into its synchronous part
(registering the callback, initiating the write) and the rejection handler
that runs if the write fails, mirroring the then/catch chain of the source.
-/

/-- Opaque request/response payload (the source never inspects it). -/
abbrev Payload := Nat

/-- interface CallbackItem: the resolve/reject pair is modelled by emitting
Resolution events keyed by sequence number; only the start timestamp is data. -/
structure CallbackItem where
  start : Nat
deriving DecidableEq, Repr

/-- Failure reasons constructed by the client (the Error values of the source). -/
inductive Err where
  | serviceDied
  | cancelled (seq : Nat)
  | transport (msg : String)
  | unknownMessage (msgType : String)
deriving DecidableEq, Repr

/-- How a pending completion is settled: resolved with a successful response
body, rejected with a failing response body, or rejected with a client error. -/
inductive Outcome where
  | success (body : Payload)
  | failure (body : Payload)
  | error (e : Err)
deriving DecidableEq, Repr

/-- One settlement of the completion registered under a sequence number. -/
structure Resolution where
  seq : Nat
  outcome : Outcome
deriving DecidableEq, Repr

/-! ### JS Map semantics on association lists

CallbackMap stores its callbacks in a JS Map keyed by sequence number.
mapSet / mapLookup / mapErase reproduce Map.prototype.set / get / delete:
set replaces an existing key in place (preserving insertion order) and
otherwise appends; delete removes the entry for the key if present. -/

def mapSet : List (Nat × CallbackItem) → Nat → CallbackItem → List (Nat × CallbackItem)
  | [], seq, cb => [(seq, cb)]
  | (k, v) :: rest, seq, cb =>
    if k = seq then (seq, cb) :: rest else (k, v) :: mapSet rest seq cb

def mapLookup : List (Nat × CallbackItem) → Nat → Option CallbackItem
  | [], _ => none
  | (k, v) :: rest, seq => if k = seq then some v else mapLookup rest seq

def mapErase : List (Nat × CallbackItem) → Nat → List (Nat × CallbackItem)
  | [], _ => []
  | (k, v) :: rest, seq => if k = seq then rest else (k, v) :: mapErase rest seq

/-- class CallbackMap (lines 35-63): a map from sequence number to callback
plus the pendingResponses counter.  The counter is a JS number mutated with
++ and --, so it is embedded as an integer rather than a natural number. -/
structure CallbackMap where
  callbacks : List (Nat × CallbackItem)
  pendingResponses : Int
deriving DecidableEq, Repr

/-- Field initializers of CallbackMap: empty map, counter 0. -/
def CallbackMap.new : CallbackMap := ⟨[], 0⟩

/-- CallbackMap.destroy(e): invokes callback.e(e) for every live entry (in
insertion order), then resets the map and the counter. -/
def CallbackMap.destroy (m : CallbackMap) (e : Err) : List Resolution × CallbackMap :=
  (m.callbacks.map (fun p => ⟨p.1, Outcome.error e⟩), CallbackMap.new)

/-- CallbackMap.add(seq, callback): Map.set plus unconditional ++pendingResponses. -/
def CallbackMap.add (m : CallbackMap) (seq : Nat) (cb : CallbackItem) : CallbackMap :=
  ⟨mapSet m.callbacks seq cb, m.pendingResponses + 1⟩

/-- private CallbackMap.delete(seq): --pendingResponses only if Map.delete
actually removed an entry. -/
def CallbackMap.deleteSeq (m : CallbackMap) (seq : Nat) : CallbackMap :=
  if (mapLookup m.callbacks seq).isSome then
    ⟨mapErase m.callbacks seq, m.pendingResponses - 1⟩
  else m

/-- CallbackMap.fetch(seq): get, then delete, returning the callback. -/
def CallbackMap.fetch (m : CallbackMap) (seq : Nat) : Option CallbackItem × CallbackMap :=
  (mapLookup m.callbacks seq, m.deleteSeq seq)

/-- Proto.Request as built by RequestQueue.createRequest. -/
structure TSRequest where
  seq : Nat
  type : String
  command : String
  arguments : Payload
deriving DecidableEq, Repr

/-- interface RequestItem: the request plus its optional callback pair
(null for fire-and-forget requests).  The promise field of the source is
represented by the ExecResult value returned from execute. -/
structure RequestItem where
  request : TSRequest
  callbacks : Option CallbackItem
deriving DecidableEq, Repr

/-- class RequestQueue (lines 185-219). -/
structure RequestQueue where
  queue : List RequestItem
  sequenceNumber : Nat
deriving DecidableEq, Repr

/-- Field initializers of RequestQueue: empty queue, counter 0. -/
def RequestQueue.new : RequestQueue := ⟨[], 0⟩

/-- RequestQueue.push: Array.prototype.push appends at the tail. -/
def RequestQueue.push (q : RequestQueue) (item : RequestItem) : RequestQueue :=
  { q with queue := q.queue ++ [item] }

/-- The splice performed by RequestQueue.tryCancelPendingRequest: remove the
first queued item whose request.seq matches, if any. -/
def removeFirstAux : List RequestItem → Nat → Option (List RequestItem)
  | [], _ => none
  | it :: rest, seq =>
    if it.request.seq = seq then some rest
    else (removeFirstAux rest seq).map (fun l => it :: l)

/-- RequestQueue.tryCancelPendingRequest(seq): scan the queue for the request
with the given sequence number; splice it out and return true if found. -/
def RequestQueue.tryCancelPendingRequest (q : RequestQueue) (seq : Nat) :
    Bool × RequestQueue :=
  match removeFirstAux q.queue seq with
  | some q' => (true, { q with queue := q' })
  | none => (false, q)

/-- RequestQueue.createRequest(command, args): seq is the post-increment of
the sequence counter, the type tag is the literal string request, and
nothing else of the queue is touched. -/
def RequestQueue.createRequest (q : RequestQueue) (command : String) (args : Payload) :
    TSRequest × RequestQueue :=
  (⟨q.sequenceNumber, "request", command, args⟩,
   { q with sequenceNumber := q.sequenceNumber + 1 })

/-- The client-owned mutable state relevant to queueing, dispatch,
cancellation and the crash-loop breaker.  has222 models
apiVersion.has222Features(), which gates the cancellation pipe. -/
structure ClientState where
  requestQueue : RequestQueue
  callbacks : CallbackMap
  numberRestarts : Nat
  lastStart : Nat
  cancellationPipeName : Option String
  has222 : Bool
deriving DecidableEq, Repr

/-- Constructor state of TypeScriptServiceClient (with lastStart = 0). -/
def initialClient : ClientState :=
  { requestQueue := RequestQueue.new
    callbacks := CallbackMap.new
    numberRestarts := 0
    lastStart := 0
    cancellationPipeName := none
    has222 := false }

/-- Synchronous part of TypeScriptServiceClient.sendRequest (lines 935-951):
if the item carries callbacks, register them in the CallbackMap under the
request's sequence number.  The write to the worker's stdin is initiated
afterwards; its possible failure is handled asynchronously by
sendRequestWriteError below. -/
def sendRequestRegister (m : CallbackMap) (item : RequestItem) : CallbackMap :=
  match item.callbacks with
  | some cb => m.add item.request.seq cb
  | none => m

/-- Rejection handler attached to the write in sendRequest: on a transport
error, fetch the callback registered for the sequence number and, if present,
reject it with the error. -/
def sendRequestWriteError (m : CallbackMap) (seq : Nat) (e : Err) :
    CallbackMap × List Resolution :=
  match m.fetch seq with
  | (some _, m') => (m', [⟨seq, Outcome.error e⟩])
  | (none, m') => (m', [])

/-- Result of running the dispatch loop: the registry, the remaining queue,
and the items whose requests were written to the worker, in order. -/
structure SendLoopResult where
  callbacks : CallbackMap
  queue : List RequestItem
  written : List RequestItem
deriving DecidableEq, Repr

/-- The while loop of TypeScriptServiceClient.sendNextRequests (lines
926-933): while pendingResponses === 0 and the queue is non-empty, shift the
head item and send it (registering its callbacks and writing its request). -/
def sendLoop : CallbackMap → List RequestItem → SendLoopResult
  | m, [] => ⟨m, [], []⟩
  | m, item :: rest =>
    if m.pendingResponses = 0 then
      let r := sendLoop (sendRequestRegister m item) rest
      ⟨r.callbacks, r.queue, item :: r.written⟩
    else ⟨m, item :: rest, []⟩

/-- TypeScriptServiceClient.sendNextRequests lifted to the client state. -/
def sendNextRequests (s : ClientState) : ClientState × List RequestItem :=
  let r := sendLoop s.callbacks s.requestQueue.queue
  ({ s with callbacks := r.callbacks
            requestQueue := { s.requestQueue with queue := r.queue } },
   r.written)

/-- The promise returned by execute: Promise.resolve(null) for
fire-and-forget requests, or a pending promise tied to the sequence number. -/
inductive ExecResult where
  | resolvedNull
  | pending (seq : Nat)
deriving DecidableEq, Repr

/-- Result of TypeScriptServiceClient.execute. -/
structure ExecOutcome where
  state : ClientState
  written : List RequestItem
  result : ExecResult
deriving DecidableEq, Repr

/-- TypeScriptServiceClient.execute (lines 886-924) with expectsResult
already decoded from the boolean-or-token third argument: create the request,
build the RequestItem (callbacks only when a result is expected, with
start = Date.now()), push it, and run the dispatch loop. -/
def execute (s : ClientState) (command : String) (args : Payload)
    (expectsResult : Bool) (now : Nat) : ExecOutcome :=
  let cr := s.requestQueue.createRequest command args
  let item : RequestItem :=
    ⟨cr.1, if expectsResult then some ⟨now⟩ else none⟩
  let s1 : ClientState := { s with requestQueue := cr.2.push item }
  let r := sendNextRequests s1
  ⟨r.1, r.2, if expectsResult then ExecResult.pending cr.1.seq else ExecResult.resolvedNull⟩

/-- Result of TypeScriptServiceClient.tryCancelRequest: the new state, the
boolean return value, the rejections issued by the finally block, and the
cancellation-pipe files written (best effort). -/
structure CancelResult where
  state : ClientState
  returned : Bool
  resolutions : List Resolution
  signals : List String
deriving DecidableEq, Repr

/-- The try block of TypeScriptServiceClient.tryCancelRequest (lines
954-971): try to splice the request out of the queue (returning true);
otherwise, if the 2.2.2 cancellation pipe is available, write a per-sequence
marker file (best effort) and return true; otherwise return false. -/
def tryCancelTryPart (s : ClientState) (seq : Nat) : ClientState × Bool × List String :=
  match s.requestQueue.tryCancelPendingRequest seq with
  | (true, q') => ({ s with requestQueue := q' }, true, [])
  | (false, _) =>
    if s.has222 && s.cancellationPipeName.isSome then
      (s, true, [s.cancellationPipeName.getD "" ++ toString seq])
    else (s, false, [])

/-- TypeScriptServiceClient.tryCancelRequest (lines 953-978): the try block
above, then the finally block, which always fetches the callback registered
under the sequence number (if any) and rejects it as cancelled. -/
def tryCancelRequest (s : ClientState) (seq : Nat) : CancelResult :=
  let tp := tryCancelTryPart s seq
  let f := tp.1.callbacks.fetch seq
  match f.1 with
  | some _ =>
    ⟨{ tp.1 with callbacks := f.2 }, tp.2.1,
     [⟨seq, Outcome.error (Err.cancelled seq)⟩], tp.2.2⟩
  | none =>
    ⟨{ tp.1 with callbacks := f.2 }, tp.2.1, [], tp.2.2⟩

/-- A parsed message from the worker: the two known type tags, or any other
type string (constructor other t stands for a message whose type field is the
string t, with t neither response nor event). -/
inductive Message where
  | response (request_seq : Nat) (success : Bool) (body : Payload)
  | event (eventName : String) (body : Payload)
  | other (msgType : String)
deriving DecidableEq, Repr

/-- Result of TypeScriptServiceClient.dispatchMessage: the state after the
finally block, the requests written by the re-invoked dispatch loop, the
resolutions issued for the message, and the exception propagated out of the
method (some e when the body threw). -/
structure DispatchResult where
  state : ClientState
  written : List RequestItem
  resolutions : List Resolution
  thrown : Option Err
deriving DecidableEq, Repr

/-- TypeScriptServiceClient.dispatchMessage (lines 980-1003).  A response
fetches its callback and resolves or rejects it with the response; an event
is routed to the host emitters (no client state change); any other type
throws an unknown-message-type error.  The finally block re-invokes
sendNextRequests in every case, including the throwing one, and the thrown
error then propagates to the caller. -/
def dispatchMessage (s : ClientState) (msg : Message) : DispatchResult :=
  let body : ClientState × List Resolution × Option Err :=
    match msg with
    | Message.response rseq ok b =>
      let f := s.callbacks.fetch rseq
      ({ s with callbacks := f.2 },
       match f.1 with
       | some _ => [⟨rseq, if ok then Outcome.success b else Outcome.failure b⟩]
       | none => [],
       none)
    | Message.event _ _ => (s, [], none)
    | Message.other t => (s, [], some (Err.unknownMessage t))
  let fin := sendNextRequests body.1
  ⟨fin.1, fin.2, body.2.1, body.2.2⟩

/-- Host-visible notifications surfaced by the crash-loop breaker. -/
inductive Notif where
  | fatalCrashLoop
  | warningCrashes
deriving DecidableEq, Repr

/-- The part of startService (lines 433-593) that resets per-Session state
once the new worker is forked: fresh RequestQueue (sequence counter 0),
fresh CallbackMap, lastStart = Date.now(). -/
def startServiceState (s : ClientState) (now : Nat) : ClientState :=
  { s with requestQueue := RequestQueue.new
           callbacks := CallbackMap.new
           lastStart := now }

/-- Result of TypeScriptServiceClient.serviceExited. -/
structure ExitResult where
  state : ClientState
  rejections : List Resolution
  notification : Option Notif
  restarted : Bool
deriving DecidableEq, Repr

/-- TypeScriptServiceClient.serviceExited (lines 809-855): destroy the
callback registry with the session-death error, then — only on an unplanned
exit (restart = true) — run the crash-loop breaker: increment numberRestarts;
if it now exceeds 5, reset it to 0 and, depending on the time since the last
start, either stop with a fatal notification (under 10s), restart with a
warning (under 60s), or restart silently; with no more than 5 restarts,
always restart. -/
def serviceExited (s : ClientState) (restart : Bool) (now : Nat) : ExitResult :=
  let dres := s.callbacks.destroy Err.serviceDied
  let s0 : ClientState := { s with callbacks := dres.2 }
  if restart then
    let diff := now - s0.lastStart
    if s0.numberRestarts + 1 > 5 then
      if diff < 10 * 1000 then
        ⟨{ s0 with numberRestarts := 0, lastStart := now }, dres.1,
         some Notif.fatalCrashLoop, false⟩
      else if diff < 60 * 1000 then
        ⟨startServiceState { s0 with numberRestarts := 0 } now, dres.1,
         some Notif.warningCrashes, true⟩
      else
        ⟨startServiceState { s0 with numberRestarts := 0 } now, dres.1,
         none, true⟩
    else
      ⟨startServiceState { s0 with numberRestarts := s0.numberRestarts + 1 } now,
       dres.1, none, true⟩
  else ⟨s0, dres.1, none, false⟩

/-- One external stimulus handled by the client. -/
inductive ClientOp where
  | exec (command : String) (args : Payload) (expectsResult : Bool) (now : Nat)
  | message (msg : Message)
  | cancel (seq : Nat)
  | writeFail (seq : Nat) (e : Err)
  | exited (restart : Bool) (now : Nat)
deriving DecidableEq, Repr

/-- State transition of the client under one stimulus (outputs projected away). -/
def clientStep (s : ClientState) : ClientOp → ClientState
  | ClientOp.exec c a b now => (execute s c a b now).state
  | ClientOp.message msg => (dispatchMessage s msg).state
  | ClientOp.cancel seq => (tryCancelRequest s seq).state
  | ClientOp.writeFail seq e =>
    { s with callbacks := (sendRequestWriteError s.callbacks seq e).1 }
  | ClientOp.exited restart now => (serviceExited s restart now).state

/-- Run a list of stimuli from a state. -/
def runClient (s : ClientState) : List ClientOp → ClientState
  | [] => s
  | op :: rest => runClient (clientStep s op) rest

/-- An op stays within the current Session (it is not an unplanned exit that
tears the Session down and restarts with a fresh sequence space). -/
def ClientOp.sessionLocal : ClientOp → Bool
  | ClientOp.exited true _ => false
  | _ => true

/-- One operation on the CallbackMap alone (for registry-level properties). -/
inductive RegistryOp where
  | add (seq : Nat) (cb : CallbackItem)
  | fetch (seq : Nat)
  | destroy
deriving DecidableEq, Repr

/-- Apply one registry operation (settlement outputs projected away). -/
def applyRegistryOp (m : CallbackMap) : RegistryOp → CallbackMap
  | RegistryOp.add seq cb => m.add seq cb
  | RegistryOp.fetch seq => (m.fetch seq).2
  | RegistryOp.destroy => (m.destroy Err.serviceDied).2

/-- Run registry operations from a given map. -/
def runRegistryFrom (m : CallbackMap) : List RegistryOp → CallbackMap
  | [] => m
  | op :: rest => runRegistryFrom (applyRegistryOp m op) rest

/-- Run registry operations from the freshly constructed map. -/
def runRegistryOps (ops : List RegistryOp) : CallbackMap :=
  runRegistryFrom CallbackMap.new ops

/-- Every add in the operation list registers a sequence number that is not
live in the map at the moment the add executes. -/
def addsFresh (m : CallbackMap) : List RegistryOp → Bool
  | [] => true
  | op :: rest =>
    (match op with
     | RegistryOp.add seq _ => (mapLookup m.callbacks seq).isNone
     | _ => true)
    && addsFresh (applyRegistryOp m op) rest

/-- Sequence numbers issued by a series of createRequest calls on a queue. -/
def issueSeqs (q : RequestQueue) : List (String × Payload) → List Nat
  | [] => []
  | (c, a) :: rest =>
    let r := q.createRequest c a
    r.1.seq :: issueSeqs r.2 rest



/-! ### Lemmas about the JS-Map association-list operations -/

theorem mapLookup_set_self (l : List (Nat × CallbackItem)) (k : Nat) (v : CallbackItem) :
    mapLookup (mapSet l k v) k = some v := by
  induction l with
  | nil => simp [mapSet, mapLookup]
  | cons p rest ih =>
    by_cases h : p.1 = k
    · simp [mapSet, h, mapLookup]
    · simp [mapSet, h, mapLookup, ih]

theorem mapLookup_set_ne (l : List (Nat × CallbackItem)) (k k' : Nat) (v : CallbackItem)
    (h : k' ≠ k) : mapLookup (mapSet l k v) k' = mapLookup l k' := by
  have hk : ¬(k = k') := fun hh => h hh.symm
  induction l with
  | nil => simp [mapSet, mapLookup, hk]
  | cons p rest ih =>
    obtain ⟨pk, pv⟩ := p
    by_cases hp : pk = k
    · subst hp
      simp [mapSet, mapLookup, hk]
    · simp [mapSet, hp, mapLookup, ih]

theorem mapErase_of_lookup_none (l : List (Nat × CallbackItem)) (k : Nat)
    (h : mapLookup l k = none) : mapErase l k = l := by
  induction l with
  | nil => simp [mapErase]
  | cons p rest ih =>
    by_cases hp : p.1 = k
    · simp [mapLookup, hp] at h
    · simp [mapLookup, hp] at h
      simp [mapErase, hp, ih h]

theorem mapErase_set_of_none (l : List (Nat × CallbackItem)) (k : Nat) (v : CallbackItem)
    (h : mapLookup l k = none) : mapErase (mapSet l k v) k = l := by
  induction l with
  | nil => simp [mapSet, mapErase]
  | cons p rest ih =>
    by_cases hp : p.1 = k
    · simp [mapLookup, hp] at h
    · simp [mapLookup, hp] at h
      simp [mapSet, hp, mapErase, ih h]

theorem mapSet_length (l : List (Nat × CallbackItem)) (k : Nat) (v : CallbackItem) :
    (mapSet l k v).length
      = if (mapLookup l k).isSome then l.length else l.length + 1 := by
  induction l with
  | nil => simp [mapSet, mapLookup]
  | cons p rest ih =>
    by_cases hp : p.1 = k
    · simp [mapSet, hp, mapLookup]
    · simp [mapSet, hp, mapLookup, ih]
      by_cases hs : (mapLookup rest k).isSome <;> simp [hs]

theorem mapErase_length_of_some (l : List (Nat × CallbackItem)) (k : Nat)
    (h : (mapLookup l k).isSome) : (mapErase l k).length + 1 = l.length := by
  induction l with
  | nil => simp [mapLookup] at h
  | cons p rest ih =>
    by_cases hp : p.1 = k
    · simp [mapErase, hp]
    · simp [mapLookup, hp] at h
      simp [mapErase, hp, ih h]

theorem mapLookup_erase_none (l : List (Nat × CallbackItem)) (k s : Nat)
    (h : mapLookup l s = none) : mapLookup (mapErase l k) s = none := by
  induction l with
  | nil => simp [mapErase, mapLookup]
  | cons p rest ih =>
    by_cases hs : p.1 = s
    · simp [mapLookup, hs] at h
    · simp [mapLookup, hs] at h
      by_cases hp : p.1 = k
      · simp [mapErase, hp, h]
      · simp [mapErase, hp, mapLookup, hs, ih h]

theorem mapLookup_none_of_not_key (l : List (Nat × CallbackItem)) (k : Nat)
    (h : ∀ p ∈ l, p.1 ≠ k) : mapLookup l k = none := by
  induction l with
  | nil => simp [mapLookup]
  | cons p rest ih =>
    have hp := h p (by simp)
    simp [mapLookup, hp]
    exact ih (fun p' hp' => h p' (by simp [hp']))

theorem mapLookup_erase_self_of_nodup (l : List (Nat × CallbackItem)) (k : Nat)
    (h : (l.map Prod.fst).Nodup) : mapLookup (mapErase l k) k = none := by
  induction l with
  | nil => simp [mapErase, mapLookup]
  | cons p rest ih =>
    simp only [List.map_cons, List.nodup_cons] at h
    by_cases hp : p.1 = k
    · subst hp
      simp [mapErase]
      exact mapLookup_none_of_not_key _ _
        (fun p' hp' => fun hk => h.1 (hk ▸ List.mem_map_of_mem Prod.fst hp'))
    · simp [mapErase, hp, mapLookup, ih h.2]

/-! ### Lemmas about the dispatch loop -/

/-- With a non-zero pending count the while loop of sendNextRequests does not
run at all: nothing is written, nothing changes. -/
theorem sendLoop_stuck (m : CallbackMap) (q : List RequestItem)
    (h : m.pendingResponses ≠ 0) : sendLoop m q = ⟨m, q, []⟩ := by
  cases q with
  | nil => simp [sendLoop]
  | cons item rest => simp [sendLoop, h]

/-- Registering a result-bearing item raises the pending count by one. -/
theorem sendRequestRegister_pending (m : CallbackMap) (item : RequestItem) :
    (sendRequestRegister m item).pendingResponses
      = if item.callbacks.isSome then m.pendingResponses + 1 else m.pendingResponses := by
  cases hc : item.callbacks <;> simp [sendRequestRegister, hc, CallbackMap.add]

/-- Unfolding of one iteration of the while loop when the gate is open. -/
theorem sendLoop_cons_zero (m : CallbackMap) (item : RequestItem)
    (rest : List RequestItem) (h : m.pendingResponses = 0) :
    sendLoop m (item :: rest)
      = ⟨(sendLoop (sendRequestRegister m item) rest).callbacks,
         (sendLoop (sendRequestRegister m item) rest).queue,
         item :: (sendLoop (sendRequestRegister m item) rest).written⟩ := by
  simp [sendLoop, h]

/-- Every item written by the dispatch loop came from the queue it drained. -/
theorem sendLoop_written_mem (q : List RequestItem) (m : CallbackMap) :
    ∀ it ∈ (sendLoop m q).written, it ∈ q := by
  induction q generalizing m with
  | nil => simp [sendLoop]
  | cons item rest ih =>
    by_cases h : m.pendingResponses = 0
    · rw [sendLoop_cons_zero m item rest h]
      intro it hit
      rw [List.mem_cons] at hit
      rcases hit with rfl | hit
      · exact List.mem_cons_self it rest
      · exact List.mem_cons_of_mem _ (ih _ it hit)
    · simp [sendLoop, h]

/-- Every item left in the queue by the dispatch loop came from the queue. -/
theorem sendLoop_queue_mem (q : List RequestItem) (m : CallbackMap) :
    ∀ it ∈ (sendLoop m q).queue, it ∈ q := by
  induction q generalizing m with
  | nil => simp [sendLoop]
  | cons item rest ih =>
    by_cases h : m.pendingResponses = 0
    · rw [sendLoop_cons_zero m item rest h]
      intro it hit
      exact List.mem_cons_of_mem _ (ih _ it hit)
    · simp [sendLoop, h]

/-- If the loop stops with a non-empty queue, the pending count is non-zero:
the loop runs until quiescence. -/
theorem sendLoop_quiescent (q : List RequestItem) (m : CallbackMap)
    (h : (sendLoop m q).queue ≠ []) :
    (sendLoop m q).callbacks.pendingResponses ≠ 0 := by
  induction q generalizing m with
  | nil => simp [sendLoop] at h
  | cons item rest ih =>
    by_cases hp : m.pendingResponses = 0
    · rw [sendLoop_cons_zero m item rest hp] at h ⊢
      exact ih _ h
    · simp [sendLoop, hp]

/-- In one burst of the dispatch loop, every written item except possibly the
last is fire-and-forget: a result-bearing item raises the pending count and
thereby ends the burst. -/
theorem sendLoop_written_ff (q : List RequestItem) (m : CallbackMap) :
    ∀ it ∈ (sendLoop m q).written.dropLast, it.callbacks = none := by
  induction q generalizing m with
  | nil => simp [sendLoop]
  | cons item rest ih =>
    by_cases hp : m.pendingResponses = 0
    · rw [sendLoop_cons_zero m item rest hp]
      cases hc : item.callbacks with
      | some cb =>
        have hstuck : sendLoop (sendRequestRegister m item) rest
            = ⟨sendRequestRegister m item, rest, []⟩ := by
          apply sendLoop_stuck
          rw [sendRequestRegister_pending, hc]
          simp [hp]
        simp [hstuck]
      | none =>
        intro it hit
        rcases hw : (sendLoop (sendRequestRegister m item) rest).written with _ | ⟨w, ws⟩
        · simp [hw] at hit
        · rw [hw] at hit
          rw [List.dropLast_cons₂] at hit
          rw [List.mem_cons] at hit
          rcases hit with rfl | hit
          · exact hc
          · exact ih _ it (by rw [hw]; exact hit)
    · simp [sendLoop, hp]

/-- No pending completion is associated with seq anywhere in the client:
not live in the registry, and any queued item bearing seq is fire-and-forget. -/
def NoPendingFor (seq : Nat) (s : ClientState) : Prop :=
  mapLookup s.callbacks.callbacks seq = none ∧
  ∀ it ∈ s.requestQueue.queue, it.request.seq = seq → it.callbacks = none

/-- The dispatch loop never creates a registry entry for a sequence number
whose queued occurrences are all fire-and-forget. -/
theorem sendLoop_no_entry (seq : Nat) (q : List RequestItem) (m : CallbackMap)
    (hm : mapLookup m.callbacks seq = none)
    (hq : ∀ it ∈ q, it.request.seq = seq → it.callbacks = none) :
    mapLookup (sendLoop m q).callbacks.callbacks seq = none ∧
    ∀ it ∈ (sendLoop m q).queue, it.request.seq = seq → it.callbacks = none := by
  induction q generalizing m with
  | nil => exact ⟨hm, by simp [sendLoop]⟩
  | cons item rest ih =>
    by_cases hp : m.pendingResponses = 0
    · rw [sendLoop_cons_zero m item rest hp]
      have hm' : mapLookup (sendRequestRegister m item).callbacks seq = none := by
        cases hc : item.callbacks with
        | none => simpa [sendRequestRegister, hc] using hm
        | some cb =>
          by_cases hs : item.request.seq = seq
          · have := hq item (List.mem_cons_self item rest) hs
            rw [hc] at this
            exact absurd this (by simp)
          · simpa [sendRequestRegister, hc, CallbackMap.add,
              mapLookup_set_ne m.callbacks item.request.seq seq cb
                (fun hh => hs hh.symm)] using hm
      exact ih _ hm' (fun it hit => hq it (List.mem_cons_of_mem _ hit))
    · rw [sendLoop_stuck m _ hp]
      exact ⟨hm, hq⟩

/-! ### Lemmas about queue removal -/

/-- Items surviving the cancellation splice were in the original queue. -/
theorem removeFirstAux_mem (l : List RequestItem) (seq : Nat) (l' : List RequestItem)
    (h : removeFirstAux l seq = some l') : ∀ it ∈ l', it ∈ l := by
  induction l generalizing l' with
  | nil => simp [removeFirstAux] at h
  | cons x rest ih =>
    by_cases hx : x.request.seq = seq
    · simp only [removeFirstAux, if_pos hx, Option.some.injEq] at h
      subst h
      exact fun it hit => List.mem_cons_of_mem _ hit
    · simp only [removeFirstAux, if_neg hx] at h
      obtain ⟨l'', hrec, hcons⟩ := Option.map_eq_some'.mp h
      subst hcons
      intro it hit
      rw [List.mem_cons] at hit
      rcases hit with rfl | hit
      · exact List.mem_cons_self it rest
      · exact List.mem_cons_of_mem _ (ih l'' hrec it hit)

/-- If the queued sequence numbers are distinct, the cancellation splice
removes the only occurrence: no surviving item bears the cancelled number. -/
theorem removeFirstAux_not_mem (l : List RequestItem) (seq : Nat) (l' : List RequestItem)
    (hnd : (l.map (fun it => it.request.seq)).Nodup)
    (h : removeFirstAux l seq = some l') : ∀ it ∈ l', it.request.seq ≠ seq := by
  induction l generalizing l' with
  | nil => simp [removeFirstAux] at h
  | cons x rest ih =>
    simp only [List.map_cons, List.nodup_cons] at hnd
    by_cases hx : x.request.seq = seq
    · simp only [removeFirstAux, if_pos hx, Option.some.injEq] at h
      subst h
      intro it hit hseq
      exact hnd.1 (hx ▸ hseq ▸ List.mem_map_of_mem (fun it => it.request.seq) hit)
    · simp only [removeFirstAux, if_neg hx] at h
      obtain ⟨l'', hrec, hcons⟩ := Option.map_eq_some'.mp h
      subst hcons
      intro it hit
      rw [List.mem_cons] at hit
      rcases hit with rfl | hit
      · exact hx
      · exact ih l'' hnd.2 hrec it hit

/-! ### Counting lemmas for the callback registry -/

/-- Under arbitrary interleavings of add / fetch / destroy the pending count
never falls below the number of live entries (duplicate adds can only push it
above). -/
theorem registry_le (ops : List RegistryOp) (m : CallbackMap)
    (h : (m.callbacks.length : Int) ≤ m.pendingResponses) :
    ((runRegistryFrom m ops).callbacks.length : Int)
      ≤ (runRegistryFrom m ops).pendingResponses := by
  induction ops generalizing m with
  | nil => exact h
  | cons op rest ih =>
    rw [runRegistryFrom]
    apply ih
    cases op with
    | add seq cb =>
      simp only [applyRegistryOp, CallbackMap.add]
      rw [mapSet_length]
      by_cases hs : (mapLookup m.callbacks seq).isSome
      · simp only [if_pos hs]
        omega
      · simp only [if_neg hs]
        push_cast
        omega
    | fetch seq =>
      simp only [applyRegistryOp, CallbackMap.fetch, CallbackMap.deleteSeq]
      by_cases hs : (mapLookup m.callbacks seq).isSome
      · simp only [if_pos hs]
        have hlen := mapErase_length_of_some m.callbacks seq hs
        omega
      · simp only [if_neg hs]
        exact h
    | destroy =>
      simp [applyRegistryOp, CallbackMap.destroy, CallbackMap.new]

/-- When every add registers a sequence number not currently live, the
pending count tracks the number of live entries exactly. -/
theorem registry_eq (ops : List RegistryOp) (m : CallbackMap)
    (hfresh : addsFresh m ops = true)
    (h : m.pendingResponses = (m.callbacks.length : Int)) :
    (runRegistryFrom m ops).pendingResponses
      = ((runRegistryFrom m ops).callbacks.length : Int) := by
  induction ops generalizing m with
  | nil => exact h
  | cons op rest ih =>
    rw [runRegistryFrom]
    cases op with
    | add seq cb =>
      simp only [addsFresh, Bool.and_eq_true] at hfresh
      apply ih _ hfresh.2
      have hnone : ¬(mapLookup m.callbacks seq).isSome := by
        rcases hfresh.1 with h1
        simp only [Option.isNone_iff_eq_none] at h1
        simp [h1]
      simp only [applyRegistryOp, CallbackMap.add]
      rw [mapSet_length]
      simp only [if_neg hnone]
      push_cast
      omega
    | fetch seq =>
      simp only [addsFresh, Bool.and_eq_true] at hfresh
      apply ih _ hfresh.2
      simp only [applyRegistryOp, CallbackMap.fetch, CallbackMap.deleteSeq]
      by_cases hs : (mapLookup m.callbacks seq).isSome
      · simp only [if_pos hs]
        have hlen := mapErase_length_of_some m.callbacks seq hs
        omega
      · simp only [if_neg hs]
        exact h
    | destroy =>
      simp only [addsFresh, Bool.and_eq_true] at hfresh
      apply ih _ hfresh.2
      simp [applyRegistryOp, CallbackMap.destroy, CallbackMap.new]

/-! ### Spec-side formulation of the crash-loop breaker -/

/-- Formulation following the spec's words (§4.4): increment the restart
counter; if it now exceeds 5, reset it to 0 and decide by the time since the
previous start: under 10 seconds do not restart and surface a fatal
notification, under 60 seconds restart with a warning, otherwise restart
silently; if the counter has not exceeded 5, always restart.  Returned as
(new counter, whether a restart is performed, notification). -/
def breakerSpec (counter : Nat) (sinceLastStart : Nat) : Nat × Bool × Option Notif :=
  let c := counter + 1
  if c > 5 then
    if sinceLastStart < 10 * 1000 then (0, false, some Notif.fatalCrashLoop)
    else if sinceLastStart < 60 * 1000 then (0, true, some Notif.warningCrashes)
    else (0, true, none)
  else (c, true, none)

/-- Claim C2: on an unplanned worker exit the restart counter is incremented;
if it then exceeds 5 it is reset to 0 and, when the time since the previous
start is under 10 seconds, the client does not restart and surfaces a fatal
notification; when under 60 seconds it surfaces a warning and still restarts;
when 60 seconds or more it restarts silently; with the counter not exceeding
5 the client always restarts.  serviceExited implements exactly this decision
table. -/
theorem C2_crash_loop_breaker (s : ClientState) (now : Nat) :
    ((serviceExited s true now).state.numberRestarts,
     (serviceExited s true now).restarted,
     (serviceExited s true now).notification)
      = breakerSpec s.numberRestarts (now - s.lastStart) := by
  simp only [serviceExited, breakerSpec, startServiceState]
  split_ifs <;> rfl

/-- Claim C3: on Session teardown every live entry of the Callback Registry
is rejected with the session-death failure reason, in registration order, and
the registry is cleared (fresh map, pending count 0), leaving no registered
PendingCall unresolved. -/
theorem C3_teardown_rejects_all (s : ClientState) (restart : Bool) (now : Nat) :
    (serviceExited s restart now).rejections
      = s.callbacks.callbacks.map (fun p => ⟨p.1, Outcome.error Err.serviceDied⟩) ∧
    (serviceExited s restart now).state.callbacks = CallbackMap.new := by
  simp only [serviceExited, startServiceState, CallbackMap.destroy]
  split_ifs <;> exact ⟨rfl, rfl⟩

/-- The sequence numbers issued by successive createRequest calls on one
queue are consecutive, starting at the current counter value. -/
theorem issueSeqs_eq_range' (cs : List (String × Payload)) (q : RequestQueue) :
    issueSeqs q cs = List.range' q.sequenceNumber cs.length := by
  induction cs generalizing q with
  | nil => simp [issueSeqs]
  | cons ca rest ih =>
    obtain ⟨c, a⟩ := ca
    simp [issueSeqs, RequestQueue.createRequest, ih, List.range'_succ]

/-- Claim C7: within one Session each createRequest call returns the next
sequence number with no side effect beyond the counter increment (queue
untouched, type tag request, command and arguments passed through); from a
fresh Session the issued numbers are 0, 1, 2, ... — unique and strictly
increasing — and starting a new Session resets the counter to 0. -/
theorem C7_sequence_numbers :
    (∀ (q : RequestQueue) (c : String) (a : Payload),
      q.createRequest c a
        = (⟨q.sequenceNumber, "request", c, a⟩,
           ⟨q.queue, q.sequenceNumber + 1⟩)) ∧
    (∀ cs : List (String × Payload),
      issueSeqs RequestQueue.new cs = List.range cs.length) ∧
    (∀ cs : List (String × Payload),
      (issueSeqs RequestQueue.new cs).Pairwise (· < ·)) ∧
    (∀ (s : ClientState) (now : Nat),
      (startServiceState s now).requestQueue = RequestQueue.new) := by
  refine ⟨fun q c a => rfl, fun cs => ?_, fun cs => ?_, fun s now => rfl⟩
  · rw [issueSeqs_eq_range' cs RequestQueue.new]
    rw [List.range_eq_range']
    rfl
  · rw [issueSeqs_eq_range' cs RequestQueue.new]
    exact List.pairwise_lt_range' _ _

/-- Quiescence of the dispatch loop lifted to the client state. -/
theorem sendNextRequests_quiescent (s : ClientState)
    (h : (sendNextRequests s).1.requestQueue.queue ≠ []) :
    (sendNextRequests s).1.callbacks.pendingResponses ≠ 0 :=
  sendLoop_quiescent s.requestQueue.queue s.callbacks h

/-! ### Concrete fixtures used by witnesses and counterexamples -/

/-- A fire-and-forget request item (sequence number 0, no callbacks). -/
def ffItem : RequestItem := ⟨⟨0, "request", "open", 3⟩, none⟩

/-- A result-bearing request item (sequence number 1). -/
def rbItem : RequestItem := ⟨⟨1, "request", "geterr", 4⟩, some ⟨11⟩⟩

/-- A client with one outstanding response (pending count 1) and a
fire-and-forget item waiting in the queue. -/
def busyClient : ClientState :=
  { requestQueue := ⟨[ffItem], 2⟩
    callbacks := ⟨[(5, ⟨9⟩)], 1⟩
    numberRestarts := 0
    lastStart := 0
    cancellationPipeName := none
    has222 := false }

/-- A client with nothing outstanding and a fire-and-forget item followed by
a result-bearing item in the queue. -/
def idleClient : ClientState :=
  { requestQueue := ⟨[ffItem, rbItem], 2⟩
    callbacks := CallbackMap.new
    numberRestarts := 0
    lastStart := 0
    cancellationPipeName := none
    has222 := false }

/-- Claim C1 (amended): while the Callback Registry's pending count is
greater than zero the dispatch loop writes nothing at all — result-bearing
and fire-and-forget requests alike stay queued; a burst dispatched from a
zero count consists of fire-and-forget entries with at most one
result-bearing entry, which is last and ends the burst (so no result-bearing
request is ever written while an earlier one is awaiting its response). -/
theorem C1_gating (s : ClientState) :
    (s.callbacks.pendingResponses ≠ 0 → sendNextRequests s = (s, [])) ∧
    (∀ it ∈ (sendNextRequests s).2.dropLast, it.callbacks = none) := by
  constructor
  · intro h
    simp only [sendNextRequests]
    rw [sendLoop_stuck _ _ h]
  · intro it hit
    exact sendLoop_written_ff s.requestQueue.queue s.callbacks it hit

/-- Witness for C1: with pending count 1 the queued fire-and-forget item is
not written; with pending count 0 the burst from idleClient writes the
fire-and-forget item first and it indeed has no callbacks. -/
theorem C1_gating_witness :
    sendNextRequests busyClient = (busyClient, []) ∧ ffItem.callbacks = none :=
  ⟨(C1_gating busyClient).1 (by decide),
   (C1_gating idleClient).2 ffItem (by decide)⟩

/-- Claim C1 as stated is refuted in its second half: it asserts that
fire-and-forget requests may still be written while the pending count is
greater than zero, but the while condition of sendNextRequests stops all
dispatch whenever the count is non-zero.  busyClient (pending count 1, a
fire-and-forget request queued) writes nothing; and no state with a positive
pending count writes anything. -/
theorem C1_counterexample :
    (0 < busyClient.callbacks.pendingResponses ∧
     busyClient.requestQueue.queue = [ffItem] ∧
     ffItem.callbacks = none ∧
     (sendNextRequests busyClient).2 = []) ∧
    ¬ ∃ s : ClientState,
        0 < s.callbacks.pendingResponses ∧ (sendNextRequests s).2 ≠ [] := by
  refine ⟨by decide, ?_⟩
  rintro ⟨s, hpos, hne⟩
  apply hne
  show (sendLoop s.callbacks s.requestQueue.queue).written = []
  rw [sendLoop_stuck _ _ (ne_of_gt hpos)]

/-- Claim C4 (amended): a message whose type is neither response nor event is
not merely logged and discarded — dispatchMessage throws an
unknown-message-type error that propagates to its caller, leaving the
registry untouched and settling no completion; and after handling any
message, the throwing case included (via the finally block), the dispatch
loop is re-invoked, leaving the client quiescent: if items remain queued then
a response is pending. -/
theorem C4_unknown_message (s : ClientState) :
    (∀ t : String,
      dispatchMessage s (Message.other t)
        = ⟨(sendNextRequests s).1, (sendNextRequests s).2, [],
           some (Err.unknownMessage t)⟩) ∧
    (∀ msg : Message,
      (dispatchMessage s msg).state.requestQueue.queue ≠ [] →
      (dispatchMessage s msg).state.callbacks.pendingResponses ≠ 0) := by
  constructor
  · intro t
    rfl
  · intro msg hne
    cases msg with
    | response rseq ok b => exact sendNextRequests_quiescent _ hne
    | event n b => exact sendNextRequests_quiescent _ hne
    | other t => exact sendNextRequests_quiescent _ hne

/-- Witness for C4: the unknown-type equality at a concrete state, and the
quiescence implication discharged at busyClient (whose queue stays
non-empty because a response is still pending). -/
theorem C4_unknown_message_witness :
    dispatchMessage busyClient (Message.other "ping")
      = ⟨(sendNextRequests busyClient).1, (sendNextRequests busyClient).2, [],
         some (Err.unknownMessage "ping")⟩ ∧
    (dispatchMessage busyClient (Message.event "syntaxDiag" 0)).state.callbacks.pendingResponses ≠ 0 :=
  ⟨(C4_unknown_message busyClient).1 "ping",
   (C4_unknown_message busyClient).2 (Message.event "syntaxDiag" 0) (by decide)⟩

/-- Claim C4 as stated is refuted: on a message of unknown type the
dispatcher does not log-and-discard without crashing — it propagates an
unknown-message-type exception out of dispatchMessage (the registry is
untouched and the dispatch loop still runs, but the error is thrown). -/
theorem C4_counterexample :
    ¬ (dispatchMessage initialClient (Message.other "ping")).thrown = none := by
  decide

/-- Claim C9: an incoming response whose request_seq has no live entry in the
Callback Registry (already cancelled, already resolved, or from a torn-down
prior Session) is discarded silently: no completion is settled, no error is
thrown, the registry is left exactly as it was, and only the usual
re-invocation of the dispatch loop takes place. -/
theorem C9_stale_response (s : ClientState) (rseq : Nat) (ok : Bool) (b : Payload)
    (h : mapLookup s.callbacks.callbacks rseq = none) :
    dispatchMessage s (Message.response rseq ok b)
      = ⟨(sendNextRequests s).1, (sendNextRequests s).2, [], none⟩ := by
  have hdel : s.callbacks.deleteSeq rseq = s.callbacks := by
    simp [CallbackMap.deleteSeq, h]
  simp [dispatchMessage, CallbackMap.fetch, h, hdel]

/-- Witness for C9: a response with sequence number 7 arriving at idleClient
(whose registry is empty) settles nothing and reports no error. -/
theorem C9_stale_response_witness :
    dispatchMessage idleClient (Message.response 7 true 0)
      = ⟨(sendNextRequests idleClient).1, (sendNextRequests idleClient).2, [], none⟩ :=
  C9_stale_response idleClient 7 true 0 rfl

/-- Claim C6: when the write of a dispatched request fails, the rejection
handler fails the PendingCall registered for that request's sequence number
immediately with the transport error, and removes it from the Callback
Registry — registering and then failing a fresh result-bearing request
returns the registry to exactly its previous state. -/
theorem C6_write_failure (m : CallbackMap) (item : RequestItem)
    (cb : CallbackItem) (e : Err)
    (hcb : item.callbacks = some cb)
    (hfresh : mapLookup m.callbacks item.request.seq = none) :
    (sendRequestWriteError (sendRequestRegister m item) item.request.seq e).2
      = [⟨item.request.seq, Outcome.error e⟩] ∧
    (sendRequestWriteError (sendRequestRegister m item) item.request.seq e).1 = m ∧
    mapLookup (sendRequestWriteError (sendRequestRegister m item)
        item.request.seq e).1.callbacks item.request.seq = none := by
  have hlook : mapLookup (mapSet m.callbacks item.request.seq cb) item.request.seq
      = some cb := mapLookup_set_self m.callbacks item.request.seq cb
  have herase : mapErase (mapSet m.callbacks item.request.seq cb) item.request.seq
      = m.callbacks := mapErase_set_of_none m.callbacks item.request.seq cb hfresh
  obtain ⟨mc, mp⟩ := m
  simp only [sendRequestRegister, hcb, CallbackMap.add, sendRequestWriteError,
    CallbackMap.fetch, CallbackMap.deleteSeq] at hlook herase ⊢
  rw [hlook]
  simp only [Option.isSome_some, if_true, herase]
  refine ⟨?_, ?_, ?_⟩ <;> simp [hfresh]

/-- Witness for C6: registering the result-bearing item rbItem in an empty
registry and failing its write with a transport error rejects it with that
error and leaves the registry empty again. -/
theorem C6_write_failure_witness :
    (sendRequestWriteError (sendRequestRegister CallbackMap.new rbItem)
        rbItem.request.seq (Err.transport "stream closed")).2
      = [⟨rbItem.request.seq, Outcome.error (Err.transport "stream closed")⟩] ∧
    (sendRequestWriteError (sendRequestRegister CallbackMap.new rbItem)
        rbItem.request.seq (Err.transport "stream closed")).1 = CallbackMap.new ∧
    mapLookup (sendRequestWriteError (sendRequestRegister CallbackMap.new rbItem)
        rbItem.request.seq (Err.transport "stream closed")).1.callbacks
        rbItem.request.seq = none :=
  C6_write_failure CallbackMap.new rbItem ⟨11⟩ (Err.transport "stream closed") rfl rfl

/-- The try block of tryCancelRequest never touches the callback registry. -/
theorem tryCancelTryPart_callbacks (s : ClientState) (seq : Nat) :
    (tryCancelTryPart s seq).1.callbacks = s.callbacks := by
  unfold tryCancelTryPart RequestQueue.tryCancelPendingRequest
  cases h : removeFirstAux s.requestQueue.queue seq with
  | none =>
    dsimp only
    split_ifs <;> rfl
  | some q' => rfl

/-- When the request is still queued, the try block splices it out and
reports success without signalling the worker. -/
theorem tryCancelTryPart_removed (s : ClientState) (seq : Nat) (q' : List RequestItem)
    (h : removeFirstAux s.requestQueue.queue seq = some q') :
    tryCancelTryPart s seq
      = ({ s with requestQueue := { s.requestQueue with queue := q' } }, true, []) := by
  unfold tryCancelTryPart RequestQueue.tryCancelPendingRequest
  rw [h]

/-- The finally block of tryCancelRequest in terms of the registry: the entry
for the sequence number is deleted, and it is rejected as cancelled exactly
when it was live; queue and boolean result come from the try block. -/
theorem tryCancelRequest_registry (s : ClientState) (seq : Nat) :
    (tryCancelRequest s seq).state.callbacks = s.callbacks.deleteSeq seq ∧
    (tryCancelRequest s seq).resolutions
      = (if (mapLookup s.callbacks.callbacks seq).isSome
         then [⟨seq, Outcome.error (Err.cancelled seq)⟩] else []) ∧
    (tryCancelRequest s seq).state.requestQueue = (tryCancelTryPart s seq).1.requestQueue ∧
    (tryCancelRequest s seq).returned = (tryCancelTryPart s seq).2.1 := by
  have hc := tryCancelTryPart_callbacks s seq
  simp only [tryCancelRequest, CallbackMap.fetch, hc]
  cases hl : mapLookup s.callbacks.callbacks seq with
  | none => exact ⟨rfl, by simp, rfl, rfl⟩
  | some cb => exact ⟨rfl, by simp, rfl, rfl⟩

/-- A client whose registry holds a live entry under sequence number 2 and
whose queue holds the fire-and-forget ffItem. -/
def cancelClient : ClientState :=
  { requestQueue := ⟨[ffItem], 3⟩
    callbacks := ⟨[(2, ⟨8⟩)], 1⟩
    numberRestarts := 0
    lastStart := 0
    cancellationPipeName := none
    has222 := false }

/-- A client with the result-bearing rbItem still queued (never dispatched)
and an empty registry. -/
def queuedClient : ClientState :=
  { requestQueue := ⟨[rbItem], 2⟩
    callbacks := CallbackMap.new
    numberRestarts := 0
    lastStart := 0
    cancellationPipeName := none
    has222 := false }

/-- Claim C5 (amended): cancellation always rejects as cancelled the
PendingCall registered in the Callback Registry for the sequence number (the
case of an already dispatched request), if any, regardless of whether the
underlying work stops, and removes it from the registry; a request still in
the Outgoing Queue is spliced out (the call returns true) and — the queued
sequence numbers being distinct — is never written to the worker by the
dispatch loop afterwards.  However a queued, never-dispatched request has no
registry entry, so cancellation settles no completion for it. -/
theorem C5_cancellation (s : ClientState) (seq : Nat) :
    ((tryCancelRequest s seq).resolutions
      = if (mapLookup s.callbacks.callbacks seq).isSome
        then [⟨seq, Outcome.error (Err.cancelled seq)⟩] else []) ∧
    ((s.callbacks.callbacks.map Prod.fst).Nodup →
      mapLookup (tryCancelRequest s seq).state.callbacks.callbacks seq = none) ∧
    (∀ q', removeFirstAux s.requestQueue.queue seq = some q' →
      (tryCancelRequest s seq).returned = true ∧
      (tryCancelRequest s seq).state.requestQueue.queue = q' ∧
      ((s.requestQueue.queue.map (fun it => it.request.seq)).Nodup →
        ∀ it ∈ (sendNextRequests (tryCancelRequest s seq).state).2,
          it.request.seq ≠ seq)) := by
  obtain ⟨hcal, hres, hq, hret⟩ := tryCancelRequest_registry s seq
  refine ⟨hres, ?_, ?_⟩
  · intro hnd
    rw [hcal]
    unfold CallbackMap.deleteSeq
    by_cases hs : (mapLookup s.callbacks.callbacks seq).isSome
    · rw [if_pos hs]
      exact mapLookup_erase_self_of_nodup _ _ hnd
    · rw [if_neg hs]
      exact Option.not_isSome_iff_eq_none.mp hs
  · intro q' hrm
    have htp := tryCancelTryPart_removed s seq q' hrm
    refine ⟨by rw [hret, htp], by rw [hq, htp], ?_⟩
    intro hnd it hit
    have hmem : it ∈ (tryCancelRequest s seq).state.requestQueue.queue :=
      sendLoop_written_mem _ _ it hit
    rw [hq, htp] at hmem
    exact removeFirstAux_not_mem _ _ _ hnd hrm it hmem

/-- Witness for C5: cancelling sequence number 2 at cancelClient removes the
live registry entry; cancelling the still-queued sequence number 1 at
queuedClient reports success. -/
theorem C5_cancellation_witness :
    mapLookup (tryCancelRequest cancelClient 2).state.callbacks.callbacks 2 = none ∧
    (tryCancelRequest queuedClient 1).returned = true :=
  ⟨(C5_cancellation cancelClient 2).2.1 (by decide),
   ((C5_cancellation queuedClient 1).2.2 [] (by decide)).1⟩

/-- Claim C5 as stated is refuted in its first half: queuedClient holds the
result-bearing rbItem (sequence number 1, with a PendingCall) in the queue,
never dispatched; tryCancelRequest 1 removes it from the queue and returns
true, but settles no completion at all — the associated PendingCall is not
rejected as cancelled, because only Callback-Registry entries are rejected
and a never-dispatched request has none. -/
theorem C5_counterexample :
    rbItem ∈ queuedClient.requestQueue.queue ∧
    rbItem.callbacks.isSome = true ∧
    rbItem.request.seq = 1 ∧
    (tryCancelRequest queuedClient 1).returned = true ∧
    (tryCancelRequest queuedClient 1).resolutions = [] := by
  decide

/-- Claim C8 (amended): under every interleaving of register (add), take
(fetch) and drainAll (destroy) from the fresh registry the pending count is
at least the number of live entries — hence non-negative — and fetching an
absent sequence number leaves the registry (and so the count) unchanged; when
no add re-registers a sequence number that is still live, the count equals
the live-entry count exactly.  A duplicate add drives the count above the
entry count, which is the one deviation from the claim as stated. -/
theorem C8_registry_invariant (ops : List RegistryOp) :
    (((runRegistryOps ops).callbacks.length : Int)
        ≤ (runRegistryOps ops).pendingResponses) ∧
    (0 ≤ (runRegistryOps ops).pendingResponses) ∧
    (addsFresh CallbackMap.new ops = true →
      (runRegistryOps ops).pendingResponses
        = ((runRegistryOps ops).callbacks.length : Int)) ∧
    (∀ (m : CallbackMap) (seq : Nat), mapLookup m.callbacks seq = none →
      m.fetch seq = (none, m)) := by
  have hle := registry_le ops CallbackMap.new (by simp [CallbackMap.new])
  refine ⟨hle, le_trans (Int.natCast_nonneg _) hle,
    fun hf => registry_eq ops CallbackMap.new hf (by simp [CallbackMap.new]),
    fun m seq h => ?_⟩
  simp [CallbackMap.fetch, CallbackMap.deleteSeq, h]

/-- Witness for C8: a fresh-adds interleaving (including a fetch of the
absent number 3) keeps count and entries equal, and fetching 9 from the
fresh registry changes nothing. -/
theorem C8_registry_invariant_witness :
    (runRegistryOps [RegistryOp.add 0 ⟨1⟩, RegistryOp.fetch 0, RegistryOp.fetch 3,
        RegistryOp.add 2 ⟨4⟩]).pendingResponses
      = ((runRegistryOps [RegistryOp.add 0 ⟨1⟩, RegistryOp.fetch 0, RegistryOp.fetch 3,
        RegistryOp.add 2 ⟨4⟩]).callbacks.length : Int) ∧
    CallbackMap.new.fetch 9 = (none, CallbackMap.new) :=
  ⟨(C8_registry_invariant [RegistryOp.add 0 ⟨1⟩, RegistryOp.fetch 0, RegistryOp.fetch 3,
      RegistryOp.add 2 ⟨4⟩]).2.2.1 (by decide),
   (C8_registry_invariant []).2.2.2 CallbackMap.new 9 rfl⟩

/-- Claim C8 as stated is refuted: registering the same sequence number twice
(add guards nothing) leaves one live map entry but a pending count of 2, so
the count does not equal the number of live entries under every interleaving
of registry operations. -/
theorem C8_counterexample :
    (runRegistryOps [RegistryOp.add 0 ⟨1⟩, RegistryOp.add 0 ⟨2⟩]).callbacks.length = 1 ∧
    (runRegistryOps [RegistryOp.add 0 ⟨1⟩, RegistryOp.add 0 ⟨2⟩]).pendingResponses = 2 ∧
    ¬((runRegistryOps [RegistryOp.add 0 ⟨1⟩, RegistryOp.add 0 ⟨2⟩]).pendingResponses
      = ((runRegistryOps [RegistryOp.add 0 ⟨1⟩,
          RegistryOp.add 0 ⟨2⟩]).callbacks.length : Int)) := by
  decide

/-! ### Preservation of the no-pending-completion invariant (for C10) -/

/-- Deleting any key preserves the absence of another (or the same) key. -/
theorem deleteSeq_lookup_none (m : CallbackMap) (k s : Nat)
    (h : mapLookup m.callbacks s = none) :
    mapLookup (m.deleteSeq k).callbacks s = none := by
  unfold CallbackMap.deleteSeq
  split_ifs
  · exact mapLookup_erase_none _ _ _ h
  · exact h

/-- The rejection handler of a failed write only deletes from the registry. -/
theorem sendRequestWriteError_state (m : CallbackMap) (seq : Nat) (e : Err) :
    (sendRequestWriteError m seq e).1 = m.deleteSeq seq := by
  unfold sendRequestWriteError CallbackMap.fetch
  cases mapLookup m.callbacks seq <;> rfl

/-- The try block of tryCancelRequest only removes queue items and keeps the
sequence counter. -/
theorem tryCancelTryPart_queue (s : ClientState) (seq : Nat) :
    (∀ it ∈ (tryCancelTryPart s seq).1.requestQueue.queue, it ∈ s.requestQueue.queue) ∧
    (tryCancelTryPart s seq).1.requestQueue.sequenceNumber
      = s.requestQueue.sequenceNumber := by
  unfold tryCancelTryPart RequestQueue.tryCancelPendingRequest
  cases h : removeFirstAux s.requestQueue.queue seq with
  | none =>
    dsimp only
    split_ifs <;> exact ⟨fun it hit => hit, rfl⟩
  | some q' => exact ⟨removeFirstAux_mem _ _ _ h, rfl⟩

/-- execute never introduces a completion for an older sequence number: the
new request gets a strictly larger number, and the dispatch loop registers
callbacks only for items that carry them. -/
theorem execute_no_pending (seq : Nat) (s : ClientState) (c : String) (a : Payload)
    (b : Bool) (now : Nat)
    (h1 : mapLookup s.callbacks.callbacks seq = none)
    (h2 : ∀ it ∈ s.requestQueue.queue, it.request.seq = seq → it.callbacks = none)
    (hitem : seq = s.requestQueue.sequenceNumber → b = false) :
    NoPendingFor seq (execute s c a b now).state ∧
    (execute s c a b now).state.requestQueue.sequenceNumber
      = s.requestQueue.sequenceNumber + 1 := by
  have hq : ∀ it ∈ s.requestQueue.queue
      ++ [⟨(s.requestQueue.createRequest c a).1, if b then some ⟨now⟩ else none⟩],
      it.request.seq = seq → it.callbacks = none := by
    intro it hit hseq
    rcases List.mem_append.mp hit with hin | hin
    · exact h2 it hin hseq
    · rw [List.mem_singleton] at hin
      subst hin
      have hb : b = false := hitem hseq.symm
      rw [hb]
      rfl
  have key := sendLoop_no_entry seq
    (s.requestQueue.queue
      ++ [⟨(s.requestQueue.createRequest c a).1, if b then some ⟨now⟩ else none⟩])
    s.callbacks h1 hq
  exact ⟨⟨key.1, key.2⟩, rfl⟩

/-- Every session-local client step preserves the absence of a pending
completion for an already-issued sequence number, and keeps the sequence
counter above it. -/
theorem clientStep_preserves (seq : Nat) (s : ClientState) (op : ClientOp)
    (hop : op.sessionLocal = true)
    (h : NoPendingFor seq s) (hlt : seq < s.requestQueue.sequenceNumber) :
    NoPendingFor seq (clientStep s op) ∧
    seq < (clientStep s op).requestQueue.sequenceNumber := by
  obtain ⟨h1, h2⟩ := h
  cases op with
  | exec c a b now =>
    simp only [clientStep]
    have key := execute_no_pending seq s c a b now h1 h2
      (fun heq => absurd heq (Nat.ne_of_lt hlt))
    refine ⟨key.1, ?_⟩
    rw [key.2]
    exact Nat.lt_succ_of_lt hlt
  | message msg =>
    simp only [clientStep]
    cases msg with
    | response rseq ok b =>
      have key := sendLoop_no_entry seq s.requestQueue.queue
        (s.callbacks.deleteSeq rseq) (deleteSeq_lookup_none s.callbacks rseq seq h1) h2
      exact ⟨⟨key.1, key.2⟩, hlt⟩
    | event n b =>
      have key := sendLoop_no_entry seq s.requestQueue.queue s.callbacks h1 h2
      exact ⟨⟨key.1, key.2⟩, hlt⟩
    | other t =>
      have key := sendLoop_no_entry seq s.requestQueue.queue s.callbacks h1 h2
      exact ⟨⟨key.1, key.2⟩, hlt⟩
  | cancel sq =>
    simp only [clientStep]
    obtain ⟨hcal, _, hq, _⟩ := tryCancelRequest_registry s sq
    obtain ⟨hsub, hcnt⟩ := tryCancelTryPart_queue s sq
    refine ⟨⟨?_, ?_⟩, ?_⟩
    · rw [hcal]
      exact deleteSeq_lookup_none _ _ _ h1
    · intro it hit hseq
      rw [hq] at hit
      exact h2 it (hsub it hit) hseq
    · rw [hq, hcnt]
      exact hlt
  | writeFail sq e =>
    simp only [clientStep]
    refine ⟨⟨?_, h2⟩, hlt⟩
    rw [sendRequestWriteError_state]
    exact deleteSeq_lookup_none _ _ _ h1
  | exited restart now =>
    cases restart with
    | true => simp [ClientOp.sessionLocal] at hop
    | false =>
      simp only [clientStep]
      exact ⟨⟨rfl, h2⟩, hlt⟩

/-- Session-local runs preserve the absence of a pending completion. -/
theorem runClient_preserves (seq : Nat) (ops : List ClientOp) (s : ClientState)
    (hops : ∀ op ∈ ops, op.sessionLocal = true)
    (h : NoPendingFor seq s) (hlt : seq < s.requestQueue.sequenceNumber) :
    NoPendingFor seq (runClient s ops) := by
  induction ops generalizing s with
  | nil => exact h
  | cons op rest ih =>
    have hstep := clientStep_preserves seq s op (hops op (List.mem_cons_self op rest)) h hlt
    exact ih _ (fun o ho => hops o (List.mem_cons_of_mem _ ho)) hstep.1 hstep.2

/-- Claim C10: execute called with expects-result false returns the already
resolved promise with value null, and no entry is ever added to the Callback
Registry for that request's sequence number: none exists right after the
call, and no later session-local step (execute, message dispatch,
cancellation, write-failure handling, planned exit) introduces one. -/
theorem C10_fire_and_forget :
    (∀ (s : ClientState) (c : String) (a : Payload) (now : Nat),
      (execute s c a false now).result = ExecResult.resolvedNull) ∧
    (∀ (s : ClientState) (c : String) (a : Payload) (now : Nat) (ops : List ClientOp),
      mapLookup s.callbacks.callbacks s.requestQueue.sequenceNumber = none →
      (∀ it ∈ s.requestQueue.queue, it.request.seq ≠ s.requestQueue.sequenceNumber) →
      (∀ op ∈ ops, op.sessionLocal = true) →
      NoPendingFor s.requestQueue.sequenceNumber
        (runClient (execute s c a false now).state ops)) := by
  refine ⟨fun s c a now => rfl, ?_⟩
  intro s c a now ops hml hne hops
  have hq : ∀ it ∈ s.requestQueue.queue,
      it.request.seq = s.requestQueue.sequenceNumber → it.callbacks = none :=
    fun it hit hseq => absurd hseq (hne it hit)
  have hstart := execute_no_pending s.requestQueue.sequenceNumber s c a false now
    hml hq (fun _ => rfl)
  apply runClient_preserves _ _ _ hops hstart.1
  rw [hstart.2]
  exact Nat.lt_succ_self _

/-- Witness for C10: from idleClient (next sequence number 2, not queued and
not registered) a fire-and-forget execute followed by a response, an event
and a cancellation leaves no registry entry for sequence number 2. -/
theorem C10_fire_and_forget_witness :
    (execute idleClient "open" 5 false 100).result = ExecResult.resolvedNull ∧
    NoPendingFor 2
      (runClient (execute idleClient "open" 5 false 100).state
        [ClientOp.message (Message.response 1 true 0),
         ClientOp.message (Message.event "semanticDiag" 0),
         ClientOp.cancel 2]) :=
  ⟨C10_fire_and_forget.1 idleClient "open" 5 100,
   C10_fire_and_forget.2 idleClient "open" 5 100
     [ClientOp.message (Message.response 1 true 0),
      ClientOp.message (Message.event "semanticDiag" 0),
      ClientOp.cancel 2]
     (by decide) (by decide) (by decide)⟩
